import Mathlib

/-!
Shallow embedding of `ternary/lines.py` (python-ternary line/gridline/tick
drawing helpers) and verification of its specification.

Modelling conventions:
* Python floats are modelled as exact rationals (`ℚ`).
* A ternary point is a triple `ℚ × ℚ × ℚ`; a Cartesian point is `ℚ × ℚ`.
* The external `project_point` collaborator (from `helpers.py`) is an opaque
  parameter `proj : Point3 → Option Perm → Point2`, where `Perm` is the type
  of permutations (also external).
* The matplotlib axis `ax` is modelled by the list of `Line2D` objects added
  to it so far; every drawing function takes the current list and returns the
  extended list, together with its Python return value (`None` or `ax`).
* `numpy.arange(start, stop, step)` for a positive step is the arithmetic
  sequence `start + k * step` of length `⌈(stop - start) / step⌉`.
* Python dicts (the style kwargs) are association lists with first-match
  lookup; `dict.update` replaces existing keys in place and appends new ones,
  matching Python's insertion-order semantics.
-/

namespace Ternary

/-- Ternary (barycentric) point: a triple of coordinates. -/
abbrev Point3 : Type := ℚ × ℚ × ℚ

/-- Cartesian point on the drawing surface. -/
abbrev Point2 : Type := ℚ × ℚ

/-- Value of a matplotlib style kwarg (number or string). -/
inductive StyleVal : Type where
  | num (q : ℚ)
  | str (s : String)
  deriving DecidableEq

/-- Style kwargs dictionary, as an association list in insertion order. -/
abbrev Style : Type := List (String × StyleVal)

/-- A matplotlib `Line2D((x1, x2), (y1, y2), **kwargs)` object. -/
structure Line2D : Type where
  xdata : ℚ × ℚ
  ydata : ℚ × ℚ
  style : Style
  deriving DecidableEq

/-- First endpoint of a `Line2D` segment. -/
def Line2D.startPoint (L : Line2D) : Point2 := (L.xdata.1, L.ydata.1)

/-- Second endpoint of a `Line2D` segment. -/
def Line2D.endPoint (L : Line2D) : Point2 := (L.xdata.2, L.ydata.2)

/-- Python return values occurring in this module: `None` or the axis `ax`. -/
inductive Ret : Type where
  | pyNone
  | pyAx
  deriving DecidableEq

/-- Python `d[k]` lookup (first matching key) on an association list. -/
def dictGet {V : Type} : List (String × V) → String → Option V
  | [], _ => none
  | (k0, v) :: rest, k => if k0 = k then some v else dictGet rest k

/-- Python `d[k] = v`: replace the value at an existing key in place,
otherwise append the binding at the end. -/
def dictInsert {V : Type} : List (String × V) → String → V → List (String × V)
  | [], k, v => [(k, v)]
  | (k0, v0) :: rest, k, v =>
      if k0 = k then (k, v) :: rest else (k0, v0) :: dictInsert rest k v

/-- Python `d.update(u)`: set every binding of `u` in `d`, in order. -/
def dictUpdate {V : Type} (d u : List (String × V)) : List (String × V) :=
  u.foldl (fun acc kv => dictInsert acc kv.1 kv.2) d

/-- Left-biased choice of optional values (`u[k]` if present, else `b[k]`). -/
def dictOr {V : Type} : Option V → Option V → Option V
  | some v, _ => some v
  | none, o => o

/-- `merge_dicts(base, updates)` from `lines.py`: treat a missing (or falsy)
argument as the empty dict, shallow-copy `base` and apply `updates` on top. -/
def merge_dicts {V : Type} (base updates : Option (List (String × V))) :
    List (String × V) :=
  let b := match base with | none => [] | some d => d
  let u := match updates with | none => [] | some d => d
  dictUpdate b u

/-- Mutable store of Python dict objects; a dict reference is its index. -/
structure Heap (V : Type) : Type where
  dicts : List (List (String × V))

/-- Contents of the dict object behind reference `r`. -/
def Heap.get {V : Type} (σ : Heap V) (r : Nat) : List (String × V) :=
  σ.dicts.getD r []

/-- Allocate a fresh dict object holding `d`; returns its reference. -/
def Heap.alloc {V : Type} (σ : Heap V) (d : List (String × V)) : Heap V × Nat :=
  (⟨σ.dicts ++ [d]⟩, σ.dicts.length)

/-- Overwrite the contents of the dict object behind reference `r`. -/
def Heap.set {V : Type} (σ : Heap V) (r : Nat) (d : List (String × V)) :
    Heap V :=
  ⟨σ.dicts.set r d⟩

/-- Heap-level rendering of `merge_dicts`: `z = base.copy()` allocates a new
dict object, `z.update(updates)` mutates only that fresh object, and `z` is
returned.  `None` arguments (and, by Python truthiness, empty dicts) read as
the empty dict. -/
def merge_dicts_st {V : Type} (σ : Heap V) (base updates : Option Nat) :
    Heap V × Nat :=
  let b := match base with | none => [] | some r => σ.get r
  let u := match updates with | none => [] | some r => σ.get r
  let az := σ.alloc b
  let σ2 := az.1.set az.2 (dictUpdate b u)
  (σ2, az.2)

/-- `numpy.arange(start, stop, step)` for exact rationals: the evenly spaced
values `start + k * step` with `k < ⌈(stop - start) / step⌉`, empty unless
the step is positive. -/
def arange (start stop step : ℚ) : List ℚ :=
  if 0 < step then
    (List.range (⌈(stop - start) / step⌉.toNat)).map
      (fun (k : ℕ) => start + (k : ℚ) * step)
  else []

/-- The `Line2D` object `line` builds from two ternary points: both points go
through `project_point` with the same permutation, and matplotlib receives the
pair of x coordinates and the pair of y coordinates. -/
def line2D {Perm : Type} (proj : Point3 → Option Perm → Point2)
    (p1 p2 : Point3) (permutation : Option Perm) (kw : Style) : Line2D :=
  let pp1 := proj p1 permutation
  let pp2 := proj p2 permutation
  { xdata := (pp1.1, pp2.1), ydata := (pp1.2, pp2.2), style := kw }

/-- `line(ax, p1, p2, permutation=None, **kwargs)`: projects both points and
adds one `Line2D` to the axis.  The Python function has no `return`
statement, so its value is `None`. -/
def line {Perm : Type} (proj : Point3 → Option Perm → Point2)
    (s : List Line2D) (p1 p2 : Point3) (permutation : Option Perm)
    (kw : Style) : List Line2D × Ret :=
  (s ++ [line2D proj p1 p2 permutation kw], Ret.pyNone)

/-- `horizontal_line(ax, scale, i, **kwargs)`: the i-th line parallel to the
lower axis, from `(0, scale - i, i)` to `(scale - i, 0, i)`. -/
def horizontal_line {Perm : Type} (proj : Point3 → Option Perm → Point2)
    (s : List Line2D) (scale i : ℚ) (kw : Style) : List Line2D × Ret :=
  ((line proj s (0, scale - i, i) (scale - i, 0, i) none kw).1, Ret.pyNone)

/-- `left_parallel_line(ax, scale, i, **kwargs)`: the i-th line parallel to
the left axis, from `(0, i, scale - i)` to `(scale - i, i, 0)`. -/
def left_parallel_line {Perm : Type} (proj : Point3 → Option Perm → Point2)
    (s : List Line2D) (scale i : ℚ) (kw : Style) : List Line2D × Ret :=
  ((line proj s (0, i, scale - i) (scale - i, i, 0) none kw).1, Ret.pyNone)

/-- `right_parallel_line(ax, scale, i, **kwargs)`: the i-th line parallel to
the right axis, from `(i, scale - i, 0)` to `(i, 0, scale - i)`. -/
def right_parallel_line {Perm : Type} (proj : Point3 → Option Perm → Point2)
    (s : List Line2D) (scale i : ℚ) (kw : Style) : List Line2D × Ret :=
  ((line proj s (i, scale - i, 0) (i, 0, scale - i) none kw).1, Ret.pyNone)

/-- `boundary(ax, scale, **kwargs)`: the three simplex edges, drawn by the
three parallel-line helpers at index 0; returns `ax`. -/
def boundary {Perm : Type} (proj : Point3 → Option Perm → Point2)
    (s : List Line2D) (scale : ℚ) (kw : Style) : List Line2D × Ret :=
  let s1 := (horizontal_line proj s scale 0 kw).1
  let s2 := (left_parallel_line proj s1 scale 0 kw).1
  let s3 := (right_parallel_line proj s2 scale 0 kw).1
  (s3, Ret.pyAx)

/-- Default-filling done at the top of `gridlines`: `linewidth` defaults to
`0.5` and `linestyle` to `":"` when the caller did not set them. -/
def gridDefaults (kw : Style) : Style :=
  let kw1 := if dictGet kw "linewidth" = none
    then dictInsert kw "linewidth" (StyleVal.num (1 / 2)) else kw
  if dictGet kw1 "linestyle" = none
    then dictInsert kw1 "linestyle" (StyleVal.str ":") else kw1

/-- `gridlines(ax, scale, multiple=None, horizontal_kwargs=None,
left_kwargs=None, right_kwargs=None, **kwargs)`: merged per-family styles,
`multiple` defaulting to 1 when `None` (or falsy 0), horizontal lines for
`i in arange(0, scale, multiple)` and left/right lines interleaved for
`i in arange(0, scale + multiple, multiple)`; returns `ax`. -/
def gridlines {Perm : Type} (proj : Point3 → Option Perm → Point2)
    (s : List Line2D) (scale : ℚ) (multiple : Option ℚ)
    (horizontal_kwargs left_kwargs right_kwargs : Option Style)
    (kw : Style) : List Line2D × Ret :=
  let kw := gridDefaults kw
  let hk := merge_dicts (some kw) horizontal_kwargs
  let lk := merge_dicts (some kw) left_kwargs
  let rk := merge_dicts (some kw) right_kwargs
  let m := match multiple with
    | none => 1
    | some q => if q = 0 then 1 else q
  let s1 := (arange 0 scale m).foldl
    (fun acc i => (horizontal_line proj acc scale i hk).1) s
  let s2 := (arange 0 (scale + m) m).foldl
    (fun acc i =>
      (right_parallel_line proj
        (left_parallel_line proj acc scale i lk).1 scale i rk).1) s1
  (s2, Ret.pyAx)

/-- `ticks(ax, scale, ticks=None, locations=None, multiple=1, axis="b",
offset=0.01, clockwise=False, **kwargs)`: validates the axis selector after
lowercasing, raising `ValueError` (modelled as the `some`-message component)
before anything is drawn; otherwise computes the (unused) default tick labels
and draws one short segment per index in `arange(0, scale + multiple,
multiple)` for each of the selected sides `r`, `l`, `b`, in that order. -/
def ticks {Perm : Type} (proj : Point3 → Option Perm → Point2)
    (s : List Line2D) (scale : ℚ) (ticksArg locations : Option (List ℚ))
    (multiple : ℚ) (axis : List Char) (offset : ℚ) (clockwise : Bool)
    (kw : Style) : List Line2D × Option String :=
  let axis := axis.map Char.toLower
  if ∀ c ∈ axis, c = 'l' ∨ c = 'r' ∨ c = 'b' then
    let defaulted : Bool := match ticksArg with
      | none => true
      | some t => t.isEmpty
    let locations2 : Option (List ℚ) :=
      if defaulted then some (arange 0 scale multiple) else locations
    let ticks2 : Option (List ℚ) :=
      if defaulted then locations2 else ticksArg
    let s1 := if 'r' ∈ axis then
        (arange 0 (scale + multiple) multiple).foldl
          (fun acc i =>
            (line proj acc (scale - i, i, 0)
              (if clockwise then (scale - i, i + offset * scale, 0)
               else (scale - i + offset * scale, i, 0)) none kw).1) s
      else s
    let s2 := if 'l' ∈ axis then
        (arange 0 (scale + multiple) multiple).foldl
          (fun acc i =>
            (line proj acc (0, i, 0)
              (if clockwise then (-(offset * scale), i, 0)
               else (-(offset * scale), i + offset * scale, 0)) none kw).1) s1
      else s1
    let s3 := if 'b' ∈ axis then
        (arange 0 (scale + multiple) multiple).foldl
          (fun acc i =>
            (line proj acc (i, 0, 0)
              (if clockwise then (i + offset * scale, -(offset * scale), 0)
               else (i, -(offset * scale), 0)) none kw).1) s2
      else s2
    (s3, none)
  else (s, some "axis must be some combination of l, r, and b")

/-- Concrete projection used to exercise the drawing functions on closed
inputs: it forgets the third barycentric coordinate. -/
def projDemo (p : Point3) (_ : Option Unit) : Point2 := (p.1, p.2.1)

/-- Vertices of the simplex of a given scale. -/
def simplexVertices (scale : ℚ) : List Point3 :=
  [(0, scale, 0), (scale, 0, 0), (0, 0, scale)]

/-- Specification predicate for the `gridlines` index families (claim C1, as
amended): the horizontal family is drawn exactly for the indices of
`arange(0, scale, multiple)` and the left/right families exactly for the
indices of `arange(0, scale + multiple, multiple)`, which are the half-open
stepped sequences; the index `scale` is never drawn horizontally, the
left/right families draw one more line than the horizontal family, the index
`scale` is drawn on the left/right families whenever `multiple` divides
`scale`, and the `scale = 10`, `multiple = 2` instance draws the index sets
`{0,2,4,6,8}` and `{0,2,4,6,8,10}`. -/
def GridlinesSpec {Perm : Type} (proj : Point3 → Option Perm → Point2)
    (s : List Line2D) (scale m : ℚ) (hk lk rk : Option Style)
    (kw : Style) : Prop :=
  ((gridlines proj s scale (some m) hk lk rk kw).1
      = s ++ (arange 0 scale m).map (fun i =>
            line2D proj (0, scale - i, i) (scale - i, 0, i) none
              (merge_dicts (some (gridDefaults kw)) hk))
          ++ (arange 0 (scale + m) m).flatMap (fun i =>
            [line2D proj (0, i, scale - i) (scale - i, i, 0) none
               (merge_dicts (some (gridDefaults kw)) lk),
             line2D proj (i, scale - i, 0) (i, 0, scale - i) none
               (merge_dicts (some (gridDefaults kw)) rk)]))
  ∧ (∀ x : ℚ, x ∈ arange 0 scale m ↔ ∃ k : ℕ, x = (k : ℚ) * m ∧ x < scale)
  ∧ (∀ x : ℚ,
      x ∈ arange 0 (scale + m) m ↔ ∃ k : ℕ, x = (k : ℚ) * m ∧ x < scale + m)
  ∧ scale ∉ arange 0 scale m
  ∧ (arange 0 (scale + m) m).length = (arange 0 scale m).length + 1
  ∧ ((∃ k : ℕ, scale = (k : ℚ) * m) → scale ∈ arange 0 (scale + m) m)
  ∧ arange 0 (10 : ℚ) 2 = [0, 2, 4, 6, 8]
  ∧ arange 0 ((10 : ℚ) + 2) 2 = [0, 2, 4, 6, 8, 10]

/-- Specification predicate for the per-side geometry of `ticks` (claim C3):
each selected side draws one independent segment per index of
`arange(0, scale + multiple, multiple)` from its base point to its offset
point, the offset point depending on `clockwise` exactly as in the source,
the indices are the half-open stepped sequence, and the `scale = 10`,
`multiple = 5` instance has index set `{0, 5, 10}` (3 ticks per side). -/
def TicksSideSpec {Perm : Type} (proj : Point3 → Option Perm → Point2)
    (s : List Line2D) (scale m off : ℚ) (ta la : Option (List ℚ))
    (cw : Bool) (kw : Style) : Prop :=
  ((ticks proj s scale ta la m ['r'] off cw kw).1
      = s ++ (arange 0 (scale + m) m).map (fun i =>
          line2D proj (scale - i, i, 0)
            (if cw then (scale - i, i + off * scale, 0)
             else (scale - i + off * scale, i, 0)) none kw))
  ∧ ((ticks proj s scale ta la m ['l'] off cw kw).1
      = s ++ (arange 0 (scale + m) m).map (fun i =>
          line2D proj (0, i, 0)
            (if cw then (-(off * scale), i, 0)
             else (-(off * scale), i + off * scale, 0)) none kw))
  ∧ ((ticks proj s scale ta la m ['b'] off cw kw).1
      = s ++ (arange 0 (scale + m) m).map (fun i =>
          line2D proj (i, 0, 0)
            (if cw then (i + off * scale, -(off * scale), 0)
             else (i, -(off * scale), 0)) none kw))
  ∧ (∀ x : ℚ,
      x ∈ arange 0 (scale + m) m ↔ ∃ k : ℕ, x = (k : ℚ) * m ∧ x < scale + m)
  ∧ arange 0 ((10 : ℚ) + 5) 5 = [0, 5, 10]

/-! Helper lemmas about loops that append freshly drawn segments. -/

lemma foldl_emit {α β : Type} (h : α → List β) :
    ∀ (l : List α) (s : List β),
      l.foldl (fun acc i => acc ++ h i) s = s ++ l.flatMap h
  | [], s => by simp
  | a :: l, s => by
      simp only [List.foldl_cons, List.flatMap_cons]
      rw [foldl_emit h l (s ++ h a)]
      simp

lemma foldl_emit_one {α β : Type} (f : α → β) (l : List α) (s : List β) :
    l.foldl (fun acc i => acc ++ [f i]) s = s ++ l.map f := by
  rw [foldl_emit (fun i => [f i]) l s]
  congr 1
  induction l with
  | nil => rfl
  | cons a t ih => simp [ih]

lemma foldl_emit_pair {α β : Type} (f g : α → β) (l : List α) (s : List β) :
    l.foldl (fun acc i => acc ++ [f i, g i]) s
      = s ++ l.flatMap (fun i => [f i, g i]) :=
  foldl_emit (fun i => [f i, g i]) l s

/-! Helper lemmas about `arange`. -/

lemma arange_length (start stop step : ℚ) (h : 0 < step) :
    (arange start stop step).length = (⌈(stop - start) / step⌉).toNat := by
  simp [arange, h]

lemma mem_arange_zero (stop step : ℚ) (h : 0 < step) (x : ℚ) :
    x ∈ arange 0 stop step ↔ ∃ k : ℕ, x = (k : ℚ) * step ∧ x < stop := by
  simp only [arange, if_pos h, List.mem_map, List.mem_range, sub_zero,
    zero_add]
  constructor
  · rintro ⟨k, hk, rfl⟩
    refine ⟨k, rfl, ?_⟩
    have hk2 : (k : ℤ) < ⌈stop / step⌉ := by exact_mod_cast Int.lt_toNat.mp hk
    have hk3 : (k : ℚ) < stop / step := by exact_mod_cast Int.lt_ceil.mp hk2
    exact (lt_div_iff₀ h).mp hk3
  · rintro ⟨k, rfl, hx⟩
    refine ⟨k, ?_, rfl⟩
    rw [Int.lt_toNat, Int.lt_ceil]
    push_cast
    exact (lt_div_iff₀ h).mpr hx

lemma scale_not_mem_arange (s m : ℚ) (hm : 0 < m) : s ∉ arange 0 s m := by
  intro hmem
  obtain ⟨k, _, hlt⟩ := (mem_arange_zero s m hm s).mp hmem
  exact lt_irrefl s hlt

lemma arange_succ_length (s m : ℚ) (hm : 0 < m) (hs : 0 ≤ s) :
    (arange 0 (s + m) m).length = (arange 0 s m).length + 1 := by
  rw [arange_length _ _ _ hm, arange_length _ _ _ hm]
  have h1 : (s + m - 0) / m = (s - 0) / m + 1 := by
    field_simp
  rw [h1, Int.ceil_add_one]
  have h2 : 0 ≤ ⌈(s - 0) / m⌉ := by
    apply Int.ceil_nonneg
    apply div_nonneg _ hm.le
    simpa using hs
  omega

lemma scale_mem_arange_succ (s m : ℚ) (hm : 0 < m)
    (hdvd : ∃ k : ℕ, s = (k : ℚ) * m) : s ∈ arange 0 (s + m) m := by
  obtain ⟨k, hk⟩ := hdvd
  exact (mem_arange_zero (s + m) m hm s).mpr ⟨k, hk, by linarith⟩

lemma arange_eval (stop step : ℚ) (n : ℕ) (h : 0 < step)
    (hn : ⌈stop / step⌉ = (n : ℤ)) :
    arange 0 stop step = (List.range n).map (fun (k : ℕ) => (k : ℚ) * step) := by
  simp [arange, h, sub_zero, hn]

lemma arange_10_2 : arange 0 (10 : ℚ) 2 = [0, 2, 4, 6, 8] := by
  rw [arange_eval _ _ 5 (by norm_num) (by norm_num [Int.ceil_eq_iff])]
  simp [List.range_succ]
  norm_num

lemma arange_12_2 : arange 0 ((10 : ℚ) + 2) 2 = [0, 2, 4, 6, 8, 10] := by
  rw [arange_eval _ _ 6 (by norm_num) (by norm_num [Int.ceil_eq_iff])]
  simp [List.range_succ]
  norm_num

lemma arange_15_5 : arange 0 ((10 : ℚ) + 5) 5 = [0, 5, 10] := by
  rw [arange_eval _ _ 3 (by norm_num) (by norm_num [Int.ceil_eq_iff])]
  simp [List.range_succ]
  norm_num

lemma arange_10_3 : arange 0 (10 : ℚ) 3 = [0, 3, 6, 9] := by
  rw [arange_eval _ _ 4 (by norm_num) (by norm_num [Int.ceil_eq_iff])]
  simp [List.range_succ]
  norm_num

lemma arange_13_3 : arange 0 ((10 : ℚ) + 3) 3 = [0, 3, 6, 9, 12] := by
  rw [arange_eval _ _ 5 (by norm_num) (by norm_num [Int.ceil_eq_iff])]
  simp [List.range_succ]
  norm_num

/-! Helper lemmas about association-list dictionaries. -/

lemma dictGet_insert {V : Type} (d : List (String × V)) (k0 k : String)
    (v0 : V) :
    dictGet (dictInsert d k0 v0) k = if k0 = k then some v0 else dictGet d k := by
  induction d with
  | nil => simp [dictInsert, dictGet]
  | cons a rest ih =>
      obtain ⟨k1, v1⟩ := a
      simp only [dictInsert]
      by_cases h1 : k1 = k0
      · subst h1
        by_cases h2 : k1 = k
        · simp [dictGet, h2]
        · simp [dictGet, h2]
      · by_cases h2 : k1 = k
        · subst h2
          have h3 : ¬ k0 = k1 := fun h => h1 h.symm
          simp [dictGet, if_neg h1, h3]
        · simp [dictGet, if_neg h1, h2, ih]

lemma dictGet_none_of_not_mem {V : Type} (u : List (String × V)) (k : String)
    (h : k ∉ u.map Prod.fst) : dictGet u k = none := by
  induction u with
  | nil => simp [dictGet]
  | cons a rest ih =>
      obtain ⟨k1, v1⟩ := a
      simp only [List.map_cons, List.mem_cons] at h
      push_neg at h
      have h1 : ¬ (k1 = k) := fun e => h.1 e.symm
      simp [dictGet, h1, ih h.2]

lemma dictGet_update {V : Type} (d u : List (String × V))
    (hu : (u.map Prod.fst).Nodup) (k : String) :
    dictGet (dictUpdate d u) k = dictOr (dictGet u k) (dictGet d k) := by
  induction u generalizing d with
  | nil => simp [dictUpdate, dictGet, dictOr]
  | cons a rest ih =>
      obtain ⟨k0, v0⟩ := a
      simp only [List.map_cons, List.nodup_cons] at hu
      have step : dictUpdate d ((k0, v0) :: rest)
          = dictUpdate (dictInsert d k0 v0) rest := rfl
      rw [step, ih _ hu.2, dictGet_insert]
      by_cases h2 : k0 = k
      · subst h2
        have hrest : dictGet rest k0 = none :=
          dictGet_none_of_not_mem _ _ hu.1
        simp [dictGet, hrest, dictOr]
      · simp [dictGet, h2, dictOr]

/-! Helper lemmas about the dict heap. -/

lemma list_set_snoc {α : Type} (l : List α) (x y : α) :
    (l ++ [x]).set l.length y = l ++ [y] := by
  induction l with
  | nil => rfl
  | cons a t ih => simp [ih]

lemma getD_append_lt {α : Type} (l l2 : List α) (i : Nat) (d : α)
    (h : i < l.length) : (l ++ l2).getD i d = l.getD i d := by
  induction l generalizing i with
  | nil => simp at h
  | cons a t ih =>
      cases i with
      | zero => rfl
      | succ j =>
          simp only [List.cons_append, List.getD_cons_succ]
          exact ih j (by simpa using h)

lemma getD_snoc_self {α : Type} (l : List α) (x d : α) :
    (l ++ [x]).getD l.length d = x := by
  induction l with
  | nil => rfl
  | cons a t ih => simp [ih]

/-! Unfolding lemmas for the surface component of the drawing helpers. -/

lemma line_fst {Perm : Type} (proj : Point3 → Option Perm → Point2)
    (s : List Line2D) (p1 p2 : Point3) (permutation : Option Perm)
    (kw : Style) :
    (line proj s p1 p2 permutation kw).1
      = s ++ [line2D proj p1 p2 permutation kw] := rfl

lemma horizontal_line_fst {Perm : Type} (proj : Point3 → Option Perm → Point2)
    (s : List Line2D) (scale i : ℚ) (kw : Style) :
    (horizontal_line proj s scale i kw).1
      = s ++ [line2D proj (0, scale - i, i) (scale - i, 0, i) none kw] := rfl

lemma left_parallel_line_fst {Perm : Type}
    (proj : Point3 → Option Perm → Point2) (s : List Line2D) (scale i : ℚ)
    (kw : Style) :
    (left_parallel_line proj s scale i kw).1
      = s ++ [line2D proj (0, i, scale - i) (scale - i, i, 0) none kw] := rfl

lemma right_parallel_line_fst {Perm : Type}
    (proj : Point3 → Option Perm → Point2) (s : List Line2D) (scale i : ℚ)
    (kw : Style) :
    (right_parallel_line proj s scale i kw).1
      = s ++ [line2D proj (i, scale - i, 0) (i, 0, scale - i) none kw] := rfl

/-- The full list of segments `gridlines` leaves on the surface, for a
non-degenerate `multiple`: the horizontal family in index order, then the
interleaved left/right families in index order. -/
lemma gridlines_emits {Perm : Type} (proj : Point3 → Option Perm → Point2)
    (s : List Line2D) (scale m : ℚ) (hk lk rk : Option Style) (kw : Style)
    (hm : m ≠ 0) :
    (gridlines proj s scale (some m) hk lk rk kw).1
      = s ++ (arange 0 scale m).map (fun i =>
            line2D proj (0, scale - i, i) (scale - i, 0, i) none
              (merge_dicts (some (gridDefaults kw)) hk))
          ++ (arange 0 (scale + m) m).flatMap (fun i =>
            [line2D proj (0, i, scale - i) (scale - i, i, 0) none
               (merge_dicts (some (gridDefaults kw)) lk),
             line2D proj (i, scale - i, 0) (i, 0, scale - i) none
               (merge_dicts (some (gridDefaults kw)) rk)]) := by
  simp only [gridlines]
  rw [if_neg hm]
  simp only [horizontal_line_fst, left_parallel_line_fst,
    right_parallel_line_fst, List.append_assoc, List.singleton_append]
  rw [foldl_emit_one, foldl_emit_pair]
  simp [List.append_assoc]

/-! Claim theorems. -/

/-- Claim C2: `ticks` reports a `ValueError` exactly when the lowercased
axis selector contains a character outside l, r, b (so the selector is
case-insensitive and any combination of those characters, repeats and the
empty string included, is accepted), and when the error is reported no
segment has been added to the surface. -/
theorem ticks_axis_validation {Perm : Type}
    (proj : Point3 → Option Perm → Point2) (s : List Line2D) (scale : ℚ)
    (ticksArg locations : Option (List ℚ)) (m : ℚ) (axis : List Char)
    (off : ℚ) (cw : Bool) (kw : Style) :
    (((ticks proj s scale ticksArg locations m axis off cw kw).2).isSome
        ↔ ∃ c ∈ axis.map Char.toLower, c ≠ 'l' ∧ c ≠ 'r' ∧ c ≠ 'b')
    ∧ (((ticks proj s scale ticksArg locations m axis off cw kw).2).isSome
        → (ticks proj s scale ticksArg locations m axis off cw kw).1 = s) := by
  by_cases h : ∀ c ∈ axis.map Char.toLower, c = 'l' ∨ c = 'r' ∨ c = 'b'
  · have h2 : (ticks proj s scale ticksArg locations m axis off cw kw).2
        = none := by
      simp only [ticks]
      rw [if_pos h]
    constructor
    · rw [h2]
      simp only [Option.isSome_none]
      constructor
      · intro habs
        cases habs
      · rintro ⟨c, hc, hbad⟩
        rcases h c hc with h1 | h1 | h1
        · exact absurd h1 hbad.1
        · exact absurd h1 hbad.2.1
        · exact absurd h1 hbad.2.2
    · intro habs
      rw [h2] at habs
      simp at habs
  · have h2 : (ticks proj s scale ticksArg locations m axis off cw kw).2
        = some "axis must be some combination of l, r, and b" := by
      simp only [ticks]
      rw [if_neg h]
    have h1 : (ticks proj s scale ticksArg locations m axis off cw kw).1
        = s := by
      simp only [ticks]
      rw [if_neg h]
    constructor
    · rw [h2]
      simp only [Option.isSome_some]
      refine ⟨fun _ => ?_, fun _ => trivial⟩
      push_neg at h
      exact h
    · intro _
      exact h1

/-- Claim C3: for each selected side, `ticks` draws one independent segment
per index of `arange(0, scale + multiple, multiple)` from the side's base
point — `(scale - i, i, 0)` for r, `(0, i, 0)` for l, `(i, 0, 0)` for b — to
its offset point displaced by `offset * scale` in the direction selected by
`clockwise`, and for `scale = 10`, `multiple = 5` each selected side gets
exactly the 3 tick indices 0, 5, 10. -/
theorem ticks_side_geometry {Perm : Type}
    (proj : Point3 → Option Perm → Point2) (s : List Line2D)
    (scale m off : ℚ) (ta la : Option (List ℚ)) (cw : Bool) (kw : Style)
    (hm : 0 < m) :
    TicksSideSpec proj s scale m off ta la cw kw := by
  unfold TicksSideSpec
  refine ⟨?_, ?_, ?_, fun x => mem_arange_zero _ _ hm x, arange_15_5⟩
  · have hmap : (['r'] : List Char).map Char.toLower = ['r'] := by decide
    simp only [ticks, hmap]
    rw [if_pos (by decide : ∀ c ∈ (['r'] : List Char),
          c = 'l' ∨ c = 'r' ∨ c = 'b')]
    rw [if_pos (by decide : ('r' : Char) ∈ (['r'] : List Char))]
    rw [if_neg (by decide : ¬ ('l' : Char) ∈ (['r'] : List Char))]
    rw [if_neg (by decide : ¬ ('b' : Char) ∈ (['r'] : List Char))]
    simp only [line_fst]
    rw [foldl_emit_one]
  · have hmap : (['l'] : List Char).map Char.toLower = ['l'] := by decide
    simp only [ticks, hmap]
    rw [if_pos (by decide : ∀ c ∈ (['l'] : List Char),
          c = 'l' ∨ c = 'r' ∨ c = 'b')]
    rw [if_neg (by decide : ¬ ('r' : Char) ∈ (['l'] : List Char))]
    rw [if_pos (by decide : ('l' : Char) ∈ (['l'] : List Char))]
    rw [if_neg (by decide : ¬ ('b' : Char) ∈ (['l'] : List Char))]
    simp only [line_fst]
    rw [foldl_emit_one]
  · have hmap : (['b'] : List Char).map Char.toLower = ['b'] := by decide
    simp only [ticks, hmap]
    rw [if_pos (by decide : ∀ c ∈ (['b'] : List Char),
          c = 'l' ∨ c = 'r' ∨ c = 'b')]
    rw [if_neg (by decide : ¬ ('r' : Char) ∈ (['b'] : List Char))]
    rw [if_neg (by decide : ¬ ('l' : Char) ∈ (['b'] : List Char))]
    rw [if_pos (by decide : ('b' : Char) ∈ (['b'] : List Char))]
    simp only [line_fst]
    rw [foldl_emit_one]

/-- Claim C3 witness: the geometry specification is satisfiable at the
concrete instance `scale = 10`, `multiple = 5`, `offset = 1/100`. -/
theorem ticks_side_geometry_witness :
    (0 : ℚ) < 5
    ∧ TicksSideSpec projDemo [] 10 5 (1 / 100) none none false [] :=
  ⟨by decide,
   ticks_side_geometry projDemo [] 10 5 (1 / 100) none none false []
     (by decide)⟩

/-- Claim C7: `merge_dicts` behaves as a shallow copy of `base` (empty when
absent) with every key present in `updates` overwritten by the value from
`updates` (empty when absent), and the two concrete examples from the
specification hold. -/
theorem merge_dicts_override {V : Type}
    (base updates : Option (List (String × V)))
    (hu : ((updates.getD []).map Prod.fst).Nodup) :
    (∀ k : String, dictGet (merge_dicts base updates) k
        = dictOr (dictGet (updates.getD []) k) (dictGet (base.getD []) k))
    ∧ merge_dicts (some [("a", (1 : ℚ))]) (some [("a", 2), ("b", 3)])
        = [("a", 2), ("b", 3)]
    ∧ merge_dicts (none : Option (List (String × ℚ))) none = [] := by
  refine ⟨?_, by decide, rfl⟩
  intro k
  have hEq : merge_dicts base updates
      = dictUpdate (base.getD []) (updates.getD []) := by
    cases base <;> cases updates <;> rfl
  rw [hEq]
  exact dictGet_update _ _ hu k

/-- Claim C7 witness: the override property applied at the concrete example
dictionaries, at key a. -/
theorem merge_dicts_override_witness :
    dictGet (merge_dicts (some [("a", (1 : ℚ))]) (some [("a", 2), ("b", 3)]))
        "a"
      = dictOr (dictGet [("a", (2 : ℚ)), ("b", 3)] "a")
          (dictGet [("a", (1 : ℚ))] "a") :=
  (merge_dicts_override (some [("a", (1 : ℚ))]) (some [("a", 2), ("b", 3)])
    (by decide)).1 "a"

/-- Heap-level evaluation of `merge_dicts_st`: it appends one fresh dict
object holding the merged contents and leaves every existing object alone. -/
lemma merge_dicts_st_eq {V : Type} (σ : Heap V) (base updates : Option Nat) :
    merge_dicts_st σ base updates
      = (⟨σ.dicts ++ [merge_dicts (base.map σ.get) (updates.map σ.get)]⟩,
         σ.dicts.length) := by
  cases base <;> cases updates <;>
    simp [merge_dicts_st, Heap.alloc, Heap.set, merge_dicts, list_set_snoc]

/-- Claim C9: `merge_dicts` is pure with respect to its arguments — in the
heap model of Python dict objects, after the call every pre-existing dict
reference (in particular the `base` and `updates` arguments) still holds its
old contents, and the returned reference is fresh, holding the merged
mapping. -/
theorem merge_dicts_frame {V : Type} (σ : Heap V)
    (base updates : Option Nat) :
    (∀ r : Nat, r < σ.dicts.length →
        (merge_dicts_st σ base updates).1.get r = σ.get r)
    ∧ (merge_dicts_st σ base updates).2 = σ.dicts.length
    ∧ (∀ r : Nat, r < σ.dicts.length →
        (merge_dicts_st σ base updates).2 ≠ r)
    ∧ (merge_dicts_st σ base updates).1.get (merge_dicts_st σ base updates).2
        = merge_dicts (base.map σ.get) (updates.map σ.get) := by
  rw [merge_dicts_st_eq]
  refine ⟨?_, rfl, ?_, ?_⟩
  · intro r hr
    simp only [Heap.get]
    exact getD_append_lt _ _ _ _ hr
  · intro r hr
    omega
  · simp only [Heap.get]
    exact getD_snoc_self _ _ _

/-- Claim C9 witness: on a concrete two-dict heap, merging dicts 0 and 1
leaves dict 0 unchanged. -/
theorem merge_dicts_frame_witness :
    (merge_dicts_st (⟨[[("a", (1 : ℚ))], [("b", 2)]]⟩ : Heap ℚ)
        (some 0) (some 1)).1.get 0
      = (⟨[[("a", (1 : ℚ))], [("b", 2)]]⟩ : Heap ℚ).get 0 :=
  (merge_dicts_frame (⟨[[("a", (1 : ℚ))], [("b", 2)]]⟩ : Heap ℚ)
    (some 0) (some 1)).1 0 (by decide)

/-- Claim C4: for every pair of ternary points and every (possibly absent)
permutation, `line` submits exactly one segment to the surface, whose two
endpoints are exactly the external projection of `p1` and of `p2` with the
same permutation applied to both, with the style options forwarded. -/
theorem line_single_segment {Perm : Type}
    (proj : Point3 → Option Perm → Point2) (s : List Line2D) (p1 p2 : Point3)
    (permutation : Option Perm) (kw : Style) :
    ((line proj s p1 p2 permutation kw).1
        = s ++ [line2D proj p1 p2 permutation kw])
    ∧ (line proj s p1 p2 permutation kw).1.length = s.length + 1
    ∧ ∀ L ∈ ((line proj s p1 p2 permutation kw).1).drop s.length,
        L.startPoint = proj p1 permutation
        ∧ L.endPoint = proj p2 permutation
        ∧ L.style = kw := by
  refine ⟨rfl, by simp [line], ?_⟩
  intro L hL
  have h1 : (line proj s p1 p2 permutation kw).1
      = s ++ [line2D proj p1 p2 permutation kw] := rfl
  rw [h1, List.drop_left] at hL
  simp only [List.mem_singleton] at hL
  subst hL
  exact ⟨rfl, rfl, rfl⟩

/-- Claim C5: `horizontal_line`, `left_parallel_line` and
`right_parallel_line` pass exactly the stated endpoint pairs, in the stated
tuple order, to the `line` primitive, and thus each add the corresponding
single projected segment. -/
theorem parallel_line_endpoints {Perm : Type}
    (proj : Point3 → Option Perm → Point2) (s : List Line2D) (scale i : ℚ)
    (kw : Style) :
    (horizontal_line proj s scale i kw
        = ((line proj s (0, scale - i, i) (scale - i, 0, i) none kw).1,
           Ret.pyNone))
    ∧ ((horizontal_line proj s scale i kw).1
        = s ++ [line2D proj (0, scale - i, i) (scale - i, 0, i) none kw])
    ∧ (left_parallel_line proj s scale i kw
        = ((line proj s (0, i, scale - i) (scale - i, i, 0) none kw).1,
           Ret.pyNone))
    ∧ ((left_parallel_line proj s scale i kw).1
        = s ++ [line2D proj (0, i, scale - i) (scale - i, i, 0) none kw])
    ∧ (right_parallel_line proj s scale i kw
        = ((line proj s (i, scale - i, 0) (i, 0, scale - i) none kw).1,
           Ret.pyNone))
    ∧ ((right_parallel_line proj s scale i kw).1
        = s ++ [line2D proj (i, scale - i, 0) (i, 0, scale - i) none kw]) :=
  ⟨rfl, rfl, rfl, rfl, rfl, rfl⟩

/-- Claim C6: `boundary` invokes each of the three parallel-line helpers
exactly once with index 0, issuing exactly 3 segments whose (pre-projection)
endpoint pairs each contain a vertex of the simplex, and returns the
surface `ax`. -/
theorem boundary_three_edges {Perm : Type}
    (proj : Point3 → Option Perm → Point2) (s : List Line2D) (scale : ℚ)
    (kw : Style) :
    ((boundary proj s scale kw).1
        = s ++ ([((0, scale, 0), (scale, 0, 0)),
                 ((0, 0, scale), (scale, 0, 0)),
                 ((0, scale, 0), (0, 0, scale))] : List (Point3 × Point3)).map
            (fun pr => line2D proj pr.1 pr.2 none kw))
    ∧ (boundary proj s scale kw).1.length = s.length + 3
    ∧ (boundary proj s scale kw).2 = Ret.pyAx
    ∧ ∀ pr ∈ ([((0, scale, 0), (scale, 0, 0)),
               ((0, 0, scale), (scale, 0, 0)),
               ((0, scale, 0), (0, 0, scale))] : List (Point3 × Point3)),
        pr.1 ∈ simplexVertices scale ∨ pr.2 ∈ simplexVertices scale := by
  refine ⟨?_, ?_, rfl, ?_⟩
  · simp [boundary, horizontal_line, left_parallel_line, right_parallel_line,
      line, sub_zero]
  · simp [boundary, horizontal_line, left_parallel_line, right_parallel_line,
      line]
  · intro pr hpr
    fin_cases hpr
    · exact Or.inl (by simp [simplexVertices])
    · exact Or.inl (by simp [simplexVertices])
    · exact Or.inl (by simp [simplexVertices])

/-- Claim C8, counterexample: at a concrete input, `line` does not return the
drawing surface `ax`; its Python body has no return statement, so its value
is `None`. -/
theorem line_return_counterexample :
    (line projDemo [] ((0 : ℚ), (0 : ℚ), (0 : ℚ)) ((1 : ℚ), (0 : ℚ), (0 : ℚ))
        none []).2 ≠ Ret.pyAx := by
  intro h
  exact Ret.noConfusion h

/-- Claim C8, amended: `line` returns Python `None` (not the surface) on
every input; the surface-returning-for-chaining behaviour belongs to
`boundary` and `gridlines`, not to `line`. -/
theorem line_returns_none {Perm : Type}
    (proj : Point3 → Option Perm → Point2) (s : List Line2D) (p1 p2 : Point3)
    (permutation : Option Perm) (kw : Style) :
    (line proj s p1 p2 permutation kw).2 = Ret.pyNone := rfl

/-- Claim C10: the segments drawn by `ticks` (and its error behaviour) do not
depend on the explicit tick-label and location arguments: two calls differing
only in `ticks` and `locations` produce identical results. -/
theorem ticks_ignore_label_args {Perm : Type}
    (proj : Point3 → Option Perm → Point2) (s : List Line2D) (scale : ℚ)
    (t1 l1 t2 l2 : Option (List ℚ)) (m : ℚ) (axis : List Char) (off : ℚ)
    (cw : Bool) (kw : Style) :
    ticks proj s scale t1 l1 m axis off cw kw
      = ticks proj s scale t2 l2 m axis off cw kw := rfl

/-- Claim C1, as amended: the horizontal family of `gridlines` is drawn
exactly for the indices of the half-open sequence `[0, scale)` stepped by
`multiple` (the line at index `scale` is never drawn there), the left and
right families exactly for the indices of `[0, scale + multiple)` stepped by
`multiple` — which include the index `scale` whenever `multiple` divides
`scale`, as in the `scale = 10`, `multiple = 2` example — and the left and
right families each draw exactly one more line than the horizontal family. -/
theorem gridlines_family_indices {Perm : Type}
    (proj : Point3 → Option Perm → Point2) (s : List Line2D) (scale m : ℚ)
    (hk lk rk : Option Style) (kw : Style) (hm : 0 < m) (hs : 0 ≤ scale) :
    GridlinesSpec proj s scale m hk lk rk kw := by
  unfold GridlinesSpec
  exact ⟨gridlines_emits proj s scale m hk lk rk kw hm.ne',
    fun x => mem_arange_zero _ _ hm x, fun x => mem_arange_zero _ _ hm x,
    scale_not_mem_arange _ _ hm, arange_succ_length _ _ hm hs,
    scale_mem_arange_succ _ _ hm, arange_10_2, arange_12_2⟩

/-- Claim C1 witness: the gridline-family specification instantiated at the
concrete example `scale = 10`, `multiple = 2`. -/
theorem gridlines_family_indices_witness :
    (0 : ℚ) < 2 ∧ (0 : ℚ) ≤ 10
    ∧ GridlinesSpec projDemo [] 10 2 none none none [] :=
  ⟨by decide, by decide,
   gridlines_family_indices projDemo [] 10 2 none none none []
     (by decide) (by decide)⟩

/-- Claim C1 counterexample: for `scale = 10`, `multiple = 3` the left/right
index sequence `arange(0, scale + multiple, multiple) = [0, 3, 6, 9, 12]`
does not contain the index `scale`, and the left-parallel segment of index
`scale` (degenerate at `(0, 10, 0)`) is not among the segments `gridlines`
draws — refuting the claim's assertion that the left family always includes
index `scale`. -/
theorem gridlines_scale_index_counterexample :
    ((10 : ℚ) ∉ arange 0 ((10 : ℚ) + 3) 3)
    ∧ line2D projDemo ((0 : ℚ), (10 : ℚ), (0 : ℚ))
        ((0 : ℚ), (10 : ℚ), (0 : ℚ)) none
        (merge_dicts (some (gridDefaults [])) none)
      ∉ (gridlines projDemo [] 10 (some 3) none none none []).1 := by
  constructor
  · rw [arange_13_3]
    norm_num
  · rw [gridlines_emits projDemo [] 10 3 none none none [] (by norm_num)]
    rw [arange_10_3, arange_13_3]
    intro hmem
    simp only [List.nil_append, List.map_cons, List.map_nil,
      List.flatMap_cons, List.flatMap_nil, List.append_nil,
      List.mem_append, List.mem_cons, List.not_mem_nil, or_false,
      List.cons_append, List.nil_append] at hmem
    norm_num [line2D, projDemo, Line2D.mk.injEq, Prod.mk.injEq] at hmem

end Ternary
